import Mathlib

/-
Verification of the request-execution and scheduling engine of the
hoyolab-auto-checkin repository.

Embedded source files:
  src/lib/hoyolab_core.py    (HoYoLabCore: _try_next_endpoint, make_request)
  src/lib/hoyolab_client.py  (HoYoLabCheckin: _retry_request, perform_checkin,
                              get_today_reward, get_next_reward, run)
  src/lib/hoyolab.py         (HoYoLab: run_checkins, start_loop)
  src/src/config_manager.py  (ConfigManager: should_continue_loop, get_next_run_time)

HTTP transport, logging and console output are abstracted: each HTTP attempt
is answered by an environment oracle, and the embedding records the URL used
by every attempt so that endpoint-fallback behaviour is observable.
-/

/-- Endpoint state of one executor: the fields self.current_endpoint and
self.endpoint_index of HoYoLabCore (hoyolab_core.py, constructor: the primary
endpoint with index 0). -/
structure EndpointState where
  currentEndpoint : String
  endpointIndex : Nat
deriving DecidableEq, Repr

/-- HoYoLabCore._try_next_endpoint (hoyolab_core.py lines 104-115): if
endpoint_index is still inside the fallback list, set current_endpoint to
fallback[endpoint_index], increment the index and return True; otherwise
return False leaving the state unchanged. -/
def try_next_endpoint (fallback : List String) (s : EndpointState) : Bool × EndpointState :=
  if h : s.endpointIndex < fallback.length then
    (true, { currentEndpoint := fallback.get ⟨s.endpointIndex, h⟩
             endpointIndex := s.endpointIndex + 1 })
  else
    (false, s)

/-- Iterated advance from a fresh executor state: n calls to
_try_next_endpoint starting from the primary endpoint with index 0.  The only
mutation of the endpoint state anywhere in the source is _try_next_endpoint,
so these are exactly the reachable states. -/
def advance_iter (fallback : List String) (primary : String) : Nat → EndpointState
  | 0 => ⟨primary, 0⟩
  | n + 1 => (try_next_endpoint fallback (advance_iter fallback primary n)).2

/-- The transport-level exceptions distinguished by make_request:
requests.exceptions.Timeout, requests.exceptions.HTTPError (raise_for_status,
carrying the HTTP status), and any other requests.exceptions.RequestException
(connection reset and similar). -/
inductive TransportExc where
  | timeout
  | httpError (status : Nat)
  | connectionError
deriving DecidableEq, Repr

/-- One entry of the "awards" list, and the "award" object of a claim
response: a JSON object read through award.get("name") / award.get("cnt"). -/
structure Award where
  name : Option String
  cnt : Option Nat
deriving DecidableEq, Repr

/-- The "data" object of a response: data["data"].  Its "awards" key is read
with .get("awards", []) by the reward lookups, its "award" key is read by
direct indexing in perform_checkin. -/
structure DataObj where
  awards : Option (List Award)
  award : Option Award
deriving DecidableEq, Repr

/-- A parsed JSON response body: an object with optional keys "retcode",
"message" and "data" (the upstream payload contract). -/
structure ApiResponse where
  retcode : Option Int
  message : Option String
  data : Option DataObj
deriving DecidableEq, Repr

/-- What one HTTP attempt of make_request produces before response-code
dispatch: either a raised transport exception or a parsed body. -/
inductive AttemptResult where
  | exc (e : TransportExc)
  | ok (d : ApiResponse)
deriving DecidableEq, Repr

/-- Result of one make_request call: the returned value (None or the parsed
data), the executor state after the call, and the URL used by each attempt in
order (the .urls field records, per attempt, the url string passed to
session.request). -/
structure ReqOutcome where
  result : Option ApiResponse
  state : EndpointState
  urls : List String
deriving DecidableEq, Repr

/-- The retry loop of HoYoLabCore.make_request (hoyolab_core.py lines
122-171), one recursion step per iteration of "for attempt in
range(max_attempts)".  The url argument is the string computed once before
the loop; every attempt sends to it.  The oracle gives the outcome of the
i-th HTTP send.  Dispatch, straight from the source:
- parsed body with retcode 0 or -5003: return the data;
- retcode -500001, -1 or -10001 (note: data.get("retcode", -1), so a missing
  retcode is treated as -1) with a successful _try_next_endpoint: continue;
  if the advance fails the match falls through to the default case, which
  returns the data;
- any other retcode: return the data;
- Timeout with a successful _try_next_endpoint: continue; with no fallback
  left it falls to the generic handler, which returns None;
- HTTPError 401: return None; HTTPError 429: sleep and continue; any other
  HTTPError: return None;
- any other RequestException: return None.
Falling out of the loop returns None. -/
def make_request_loop (fallback : List String) (url : String) (oracle : Nat → AttemptResult) :
    Nat → Nat → EndpointState → ReqOutcome
  | 0, _, s => ⟨none, s, []⟩
  | fuel + 1, i, s =>
    match oracle i with
    | .ok d =>
      let code := d.retcode.getD (-1)
      if code = 0 ∨ code = -5003 then
        ⟨some d, s, [url]⟩
      else if code = -500001 ∨ code = -1 ∨ code = -10001 then
        match try_next_endpoint fallback s with
        | (true, s') =>
          let r := make_request_loop fallback url oracle fuel (i + 1) s'
          ⟨r.result, r.state, url :: r.urls⟩
        | (false, s') => ⟨some d, s', [url]⟩
      else
        ⟨some d, s, [url]⟩
    | .exc .timeout =>
      match try_next_endpoint fallback s with
      | (true, s') =>
        let r := make_request_loop fallback url oracle fuel (i + 1) s'
        ⟨r.result, r.state, url :: r.urls⟩
      | (false, s') => ⟨none, s', [url]⟩
    | .exc (.httpError status) =>
      if status = 401 then
        ⟨none, s, [url]⟩
      else if status = 429 then
        let r := make_request_loop fallback url oracle fuel (i + 1) s
        ⟨r.result, r.state, url :: r.urls⟩
      else
        ⟨none, s, [url]⟩
    | .exc .connectionError => ⟨none, s, [url]⟩

/-- HoYoLabCore.make_request (hoyolab_core.py lines 117-177).  The url is
computed once, before the retry loop, from the current endpoint at entry, as
the f-string concatenation of self.current_endpoint and the endpoint path.
maxRetries is config max_retries (default 3); s0 is the executor endpoint
state at call time. -/
def make_request (fallback : List String) (endpoint : String) (maxRetries : Nat)
    (oracle : Nat → AttemptResult) (s0 : EndpointState) : ReqOutcome :=
  make_request_loop fallback (s0.currentEndpoint ++ endpoint) oracle maxRetries 0 s0

/-- Oracle for the C2 failing input: the first attempt parses a body with the
retryable retcode -500001, every later attempt parses a success body. -/
def c2oracle : Nat → AttemptResult
  | 0 => .ok ⟨some (-500001), none, none⟩
  | _ + 1 => .ok ⟨some 0, none, none⟩

/-- Lexicographic order on code-point lists, the order Python uses to
compare strings in sorted(): compare heads, recurse on equal heads. -/
def charsLe : List Char → List Char → Bool
  | [], _ => true
  | _ :: _, [] => false
  | a :: as, b :: bs => if a = b then charsLe as bs else decide (a < b)

/-- String comparison used by sorted(self.clients.keys(), key=lambda x:
x.value): lexicographic on code points. -/
def strLe (a b : String) : Bool :=
  charsLe a.toList b.toList

/-- The sort key of run_checkins: clients are pairs of a game code (the
GameType value string, for example "hsr") and the behaviour of that game
workflow run() call — a returned Bool or a raised exception. -/
def gameKeyRel (a b : String × Except String Bool) : Prop :=
  strLe a.1 b.1 = true

instance gameKeyRelDecidable : DecidableRel gameKeyRel :=
  fun _ _ => inferInstanceAs (Decidable (_ = true))

/-- How run_checkins folds one game outcome into the aggregate: a returned
value passes through, a raised exception is recorded as failure. -/
def outcomeBool : Except String Bool → Bool
  | .ok r => r
  | .error _ => false

/-- The body of the per-game loop of run_checkins (hoyolab.py lines
46-64): a normal run() result r updates success to success and r and
appends the entry (game, r) to the results; a raised exception is caught,
logged, notified, sets success to False and appends (game, False); iteration
always continues with the next game. -/
def checkin_step (acc : Bool × List (String × Bool)) (gc : String × Except String Bool) :
    Bool × List (String × Bool) :=
  match gc.2 with
  | .ok r => (acc.1 && r, acc.2 ++ [(gc.1, r)])
  | .error _ => (false, acc.2 ++ [(gc.1, false)])

/-- HoYoLab.run_checkins (hoyolab.py lines 28-68): iterate the clients in
sorted order of game code (sorted(self.clients.keys(), key=lambda x:
x.value), a stable sort), folding checkin_step from True and an empty results
dict.  Returns (success, results). -/
def run_checkins (clients : List (String × Except String Bool)) :
    Bool × List (String × Bool) :=
  (List.insertionSort gameKeyRel clients).foldl checkin_step (true, [])

/-- Boolean test that a code-point list starts with a given needle. -/
def charsStartWith : List Char → List Char → Bool
  | [], _ => true
  | _ :: _, [] => false
  | a :: as, b :: bs => decide (a = b) && charsStartWith as bs

/-- Boolean substring containment on code-point lists. -/
def charsContains (needle : List Char) : List Char → Bool
  | [] => needle.isEmpty
  | h :: t => charsStartWith needle (h :: t) || charsContains needle t

/-- Python "needle in hay" on strings: contiguous substring containment. -/
def containsStr (hay needle : String) : Bool :=
  charsContains needle.toList hay.toList

/-- HoYoLabCheckin._format_reward_name (hoyolab_client.py lines 130-136):
lower-case the award name (default "Unknown"), take cnt with default 1, and
return the first table entry whose key occurs in the name, else a generic
label built from the raw name (default "Reward"). -/
def format_reward_name (table : List (String × String)) (aw : Award) : String × Nat :=
  let name := (aw.name.getD "Unknown").toLower
  let count := aw.cnt.getD 1
  match table.find? (fun kv => containsStr name kv.1) with
  | some kv => (kv.2, count)
  | none => ("🎁 " ++ aw.name.getD "Reward", count)

/-- The KeyError / IndexError exceptions that direct dict and list indexing
can raise in hoyolab_client.py: a missing "data" key, a missing "award" key,
a list index out of range, and a missing "total_sign_day" key. -/
inductive KeyErr where
  | dataKey
  | awardKey
  | indexErr
  | signDayKey
deriving DecidableEq, Repr

/-- HoYoLabCheckin.perform_checkin (hoyolab_client.py lines 138-163), with
console and notification side effects dropped.  resp is the value of
self._retry_request(...).  "if not data: return False"; otherwise
code = data.get("retcode"); when code == 0 the message extraction indexes
data["data"]["award"] (KeyError when absent) and formats the reward; the
function finally returns code in (0, -5003). -/
def perform_checkin (table : List (String × String)) (resp : Option ApiResponse) :
    Except KeyErr Bool :=
  match resp with
  | none => .ok false
  | some d =>
    let code := d.retcode
    if code = some 0 then
      match d.data with
      | none => .error .dataKey
      | some dd =>
        match dd.award with
        | none => .error .awardKey
        | some aw =>
          let _msg := format_reward_name table aw
          .ok (code == some 0 || code == some (-5003))
    else
      .ok (code == some 0 || code == some (-5003))

/-- The check-in info object returned by get_checkin_info (the "data" object
of the info response): is_sign is read with .get("is_sign", False),
total_sign_day with .get("total_sign_day", 0) in get_today_reward and by
direct index info["total_sign_day"] in run (KeyError when absent). -/
structure Info where
  is_sign : Option Bool
  total_sign_day : Option Nat
deriving DecidableEq, Repr

/-- HoYoLabCheckin.get_today_reward (hoyolab_client.py lines 113-120), after
its _retry_request call: None response or retcode different from 0 yields
None; otherwise rewards = data["data"].get("awards", []) (KeyError when the
"data" key is absent), day = info.get("total_sign_day", 0), and the result is
_format_reward_name(rewards[day - 1]) if 0 < day <= len(rewards) else
None. -/
def get_today_reward (table : List (String × String)) (resp : Option ApiResponse)
    (info : Info) : Except KeyErr (Option (String × Nat)) :=
  match resp with
  | none => .ok none
  | some d =>
    if d.retcode = some 0 then
      match d.data with
      | none => .error .dataKey
      | some dd =>
        let rewards := dd.awards.getD []
        let day := info.total_sign_day.getD 0
        if 0 < day ∧ day ≤ rewards.length then
          match rewards[day - 1]? with
          | some aw => .ok (some (format_reward_name table aw))
          | none => .error .indexErr
        else
          .ok none
    else
      .ok none

/-- Python list indexing with a signed index: a non-negative index reads the
list directly, a negative index wraps from the end of the list
(l at i means l at len + i), and an index outside both ranges raises
IndexError, modelled as none. -/
def pyIndex {α : Type} (l : List α) (i : Int) : Option α :=
  if 0 ≤ i then l[i.toNat]?
  else if 0 ≤ i + (l.length : Int) then l[(i + (l.length : Int)).toNat]? else none

/-- HoYoLabCheckin.get_next_reward (hoyolab_client.py lines 122-128), after
its _retry_request call: the result is _format_reward_name(rewards[day]) if
day < len(rewards) else None.  The day argument is a Python int, so it is
signed: a negative day also satisfies the guard day < len(rewards), and
rewards[day] then uses Python negative indexing — wrapping from the end when
-len <= day, raising IndexError when day < -len. -/
def get_next_reward (table : List (String × String)) (resp : Option ApiResponse)
    (day : Int) : Except KeyErr (Option (String × Nat)) :=
  match resp with
  | none => .ok none
  | some d =>
    if d.retcode = some 0 then
      match d.data with
      | none => .error .dataKey
      | some dd =>
        let rewards := dd.awards.getD []
        if day < (rewards.length : Int) then
          match pyIndex rewards day with
          | some aw => .ok (some (format_reward_name table aw))
          | none => .error .indexErr
        else
          .ok none
    else
      .ok none

/-- Environment of one HoYoLabCheckin.run call: the results the collaborator
calls would produce.  info0 is the first get_checkin_info result, info1 the
refetch result after a check-in, checkinResult the value (or raised KeyError)
of perform_checkin, rewardRespToday and rewardRespNext the reward-endpoint
responses that get_today_reward and get_next_reward receive, and showDetailed
the show_detailed_rewards setting. -/
structure RunEnv where
  showDetailed : Bool
  table : List (String × String)
  info0 : Option Info
  checkinResult : Except KeyErr Bool
  info1 : Option Info
  rewardRespToday : Option ApiResponse
  rewardRespNext : Option ApiResponse

/-- Tail of HoYoLabCheckin.run (hoyolab_client.py lines 205-208): today =
get_today_reward(info) and next_r = get_next_reward(info["total_sign_day"])
when show_detailed_rewards is set (the direct index raises KeyError when
total_sign_day is absent), then display_status and return True.  The day
value read from the info object is the payload-contract day count (a
non-negative Info.total_sign_day), handed into the signed-int domain of
get_next_reward.  The second component reports whether perform_checkin was
invoked earlier in the run. -/
def run_after_checkin (env : RunEnv) (info : Info) (invoked : Bool) :
    Except KeyErr Bool × Bool :=
  if env.showDetailed then
    match get_today_reward env.table env.rewardRespToday info with
    | .error e => (.error e, invoked)
    | .ok _today =>
      match info.total_sign_day with
      | none => (.error .signDayKey, invoked)
      | some d =>
        match get_next_reward env.table env.rewardRespNext (d : Int) with
        | .error e => (.error e, invoked)
        | .ok _next => (.ok true, invoked)
  else
    (.ok true, invoked)

/-- HoYoLabCheckin.run (hoyolab_client.py lines 196-208): if
get_checkin_info returns nothing, return False.  If info.get("is_sign",
False) is falsy, invoke perform_checkin; a False result returns False, and
after a True result the status is refetched best-effort:
info = self.get_checkin_info() or info keeps the old info when the refetch
fails.  The run then proceeds to the reward/display tail and returns True.
The second component of the result reports whether perform_checkin was
invoked. -/
def run (env : RunEnv) : Except KeyErr Bool × Bool :=
  match env.info0 with
  | none => (.ok false, false)
  | some info =>
    if info.is_sign.getD false then
      run_after_checkin env info false
    else
      match env.checkinResult with
      | .error e => (.error e, true)
      | .ok false => (.ok false, true)
      | .ok true => run_after_checkin env (env.info1.getD info) true

/-- Payload-contract condition on a reward-endpoint response: a body whose
retcode is 0 carries a "data" object (spec section 6, response payload
contract). -/
def rewardRespOk (r : Option ApiResponse) : Prop :=
  ∀ d, r = some d → d.retcode = some 0 → d.data ≠ none

/-- The loop body of HoYoLabCheckin._retry_request (hoyolab_client.py lines
85-99), one recursion step per iteration of "for attempt in
range(max_retries)".  calls gives, per iteration, the behaviour of the
self.make_request(...) call: a returned value, or a raised RequestException.
A returned value is returned immediately (0 notifications).  On a raised
exception: warning and sleep when attempt < max_retries - 1, else an error
log, one failure notification through config.send_notification, and return
None.  The second component counts the notifications sent. -/
def retry_request_go (calls : Nat → Except TransportExc (Option ApiResponse))
    (maxRetries : Nat) : Nat → Nat → Option ApiResponse × Nat
  | _, 0 => (none, 0)
  | attempt, fuel + 1 =>
    match calls attempt with
    | .ok v => (v, 0)
    | .error _ =>
      if attempt < maxRetries - 1 then
        retry_request_go calls maxRetries (attempt + 1) fuel
      else
        (none, 1)

/-- HoYoLabCheckin._retry_request: run the loop from attempt 0; a zero
max_retries makes the loop body never execute, so the function falls through
and returns None with no notification. -/
def retry_request (calls : Nat → Except TransportExc (Option ApiResponse))
    (maxRetries : Nat) : Option ApiResponse × Nat :=
  if maxRetries = 0 then (none, 0) else retry_request_go calls maxRetries 0 maxRetries

/-- The loop-relevant slice of the configuration: loop.enabled,
loop.max_runs and loop.retry_failed. -/
structure LoopConfig where
  loopEnabled : Bool
  maxRuns : Nat
  retryFailed : Bool
deriving DecidableEq, Repr

/-- ConfigManager.should_continue_loop (config_manager.py lines 205-208):
self.is_loop_enabled() and (max_runs == 0 or self.run_count < max_runs). -/
def should_continue_loop (cfg : LoopConfig) (runCount : Nat) : Bool :=
  cfg.loopEnabled && (cfg.maxRuns == 0 || decide (runCount < cfg.maxRuns))

/-- What one iteration of the while body of HoYoLab.start_loop does, as seen
by the loop-level exception handlers: it raises KeyboardInterrupt (during the
interruptible wait or anywhere in the body), raises some other exception
before the cycle runs, or completes a run_checkins cycle with the given
aggregate result. -/
inductive LoopEvent where
  | interrupt
  | error
  | cycle (success : Bool)
deriving DecidableEq, Repr

/-- Observable actions of the scheduler loop recorded by the embedding: a
completed cycle, the fixed time.sleep(60) of the generic exception handler,
and the retry_delay_minutes sleep of the retry-failed branch. -/
inductive LoopAction where
  | ranCycle (success : Bool)
  | slept60
  | sleptRetry
deriving DecidableEq, Repr

/-- Why the embedded loop stopped: the KeyboardInterrupt break, a false
should_continue_loop (the while condition or the max-runs break), or
exhaustion of the step budget of the embedding (the loop itself would keep
running). -/
inductive LoopExit where
  | interrupted
  | conditionFalse
  | fuelOut
deriving DecidableEq, Repr

/-- HoYoLab.start_loop (hoyolab.py lines 76-156).  One recursion step per
iteration of "while self.config.should_continue_loop()".  The oracle gives
the behaviour of the i-th iteration body.  From the source: a
KeyboardInterrupt is caught and breaks the loop; any other exception is
caught, logged, followed by time.sleep(60), and the loop continues; a
completed cycle increments run_count, breaks when should_continue_loop has
become false ("Max runs reached"), otherwise sleeps and continues when the
cycle failed and loop.retry_failed is set, else continues normally.  The
result carries the recorded actions, the exit reason, and the final
run_count. -/
def start_loop (cfg : LoopConfig) (oracle : Nat → LoopEvent) :
    Nat → Nat → Nat → List LoopAction × LoopExit × Nat
  | 0, _, runCount => ([], .fuelOut, runCount)
  | fuel + 1, i, runCount =>
    if should_continue_loop cfg runCount then
      match oracle i with
      | .interrupt => ([], .interrupted, runCount)
      | .error =>
        let r := start_loop cfg oracle fuel (i + 1) runCount
        (.slept60 :: r.1, r.2)
      | .cycle success =>
        let rc := runCount + 1
        if should_continue_loop cfg rc then
          if !success && cfg.retryFailed then
            let r := start_loop cfg oracle fuel (i + 1) rc
            (.ranCycle success :: .sleptRetry :: r.1, r.2)
          else
            let r := start_loop cfg oracle fuel (i + 1) rc
            (.ranCycle success :: r.1, r.2)
        else
          ([.ranCycle success], .conditionFalse, rc)
    else
      ([], .conditionFalse, runCount)

/-- The daily branch of ConfigManager.get_next_run_time (config_manager.py
lines 214-229), with time modelled as whole seconds since the epoch (UTC).
now.replace(hour=h, minute=m, second=0, microsecond=0) is the start of the
current UTC day plus h hours and m minutes; if that instant is not strictly
in the future, one day is added. -/
def get_next_run_time (dailyH dailyM now : Nat) : Nat :=
  let dayStart := now - now % 86400
  let nextRun := dayStart + (dailyH * 3600 + dailyM * 60)
  if nextRun ≤ now then nextRun + 86400 else nextRun

-- Helper lemmas ----------------------------------------------------------

/-- After n advances from fresh, the cursor is min n (length of the fallback
list). -/
theorem advance_iter_index (fallback : List String) (primary : String) (n : Nat) :
    (advance_iter fallback primary n).endpointIndex = min n fallback.length := by
  induction n with
  | zero => simp [advance_iter]
  | succ n ih =>
    show (try_next_endpoint fallback (advance_iter fallback primary n)).2.endpointIndex = _
    unfold try_next_endpoint
    split
    · next h =>
      simp only []
      omega
    · next h =>
      simp only []
      omega

/-- A trace of nothing but HTTP 429 errors makes the retry loop consume its
whole budget and return None, leaving the endpoint state unchanged. -/
theorem make_request_loop_all429 (fallback : List String) (url : String)
    (oracle : Nat → AttemptResult) (h : ∀ i, oracle i = .exc (.httpError 429)) :
    ∀ fuel i s, make_request_loop fallback url oracle fuel i s
      = ⟨none, s, List.replicate fuel url⟩ := by
  intro fuel
  induction fuel with
  | zero => intro i s; rfl
  | succ fuel ih =>
    intro i s
    rw [make_request_loop, h i]
    simp [ih (i + 1) s, List.replicate_succ]

-- C1 -----------------------------------------------------------------------

/-- C1 counterexample: with max_retries = 3 and every attempt raising a
generic transport exception (a connection reset), make_request returns None
after exactly one attempt, not after three: a generic RequestException falls
straight to the final "return None" of the handler, so it does not consume
the retry budget as the claim states. -/
theorem c1_counterexample :
    (make_request ["https://fb1"] "/e" 3 (fun _ => .exc .connectionError)
        ⟨"https://p", 0⟩).result = none
    ∧ (make_request ["https://fb1"] "/e" 3 (fun _ => .exc .connectionError)
        ⟨"https://p", 0⟩).urls.length = 1
    ∧ ¬ (make_request ["https://fb1"] "/e" 3 (fun _ => .exc .connectionError)
        ⟨"https://p", 0⟩).urls.length = 3 := by
  refine ⟨rfl, rfl, by decide⟩

/-- C1 (amended): the only transport failures that consume the retry budget
are HTTP 429 errors; a run of N consecutive 429 failures with N at least
max_retries makes make_request return None after exactly max_retries
attempts, while any other non-401, non-timeout transport exception (for
example a connection reset) makes make_request return None immediately after
the single attempt that raised it. -/
theorem c1_theorem (fallback : List String) (endpoint : String) (maxRetries : Nat)
    (oracle : Nat → AttemptResult) (s0 : EndpointState) :
    ((∀ i, oracle i = .exc (.httpError 429)) →
      (make_request fallback endpoint maxRetries oracle s0).result = none
      ∧ (make_request fallback endpoint maxRetries oracle s0).urls.length = maxRetries)
    ∧ (oracle 0 = .exc .connectionError → 1 ≤ maxRetries →
      (make_request fallback endpoint maxRetries oracle s0).result = none
      ∧ (make_request fallback endpoint maxRetries oracle s0).urls.length = 1) := by
  constructor
  · intro h
    rw [make_request, make_request_loop_all429 fallback _ oracle h maxRetries 0 s0]
    simp
  · intro h hm
    obtain ⟨m, rfl⟩ : ∃ m, maxRetries = m + 1 := ⟨maxRetries - 1, by omega⟩
    rw [make_request, make_request_loop, h]
    simp

/-- C1 witness: the amended theorem applied at a concrete all-429 trace with
max_retries = 3, and at a concrete connection-reset trace. -/
theorem c1_witness :
    (make_request ["https://fb1"] "/e" 3 (fun _ => .exc (.httpError 429))
        ⟨"https://p", 0⟩).result = none
    ∧ (make_request ["https://fb1"] "/e" 3 (fun _ => .exc (.httpError 429))
        ⟨"https://p", 0⟩).urls.length = 3 :=
  ( c1_theorem ["https://fb1"] "/e" 3 (fun _ => .exc (.httpError 429))
    ⟨"https://p", 0⟩).1 (fun _ => rfl)

-- C2 -----------------------------------------------------------------------

/-- C2: code bug, demonstrated at the failing input.  First attempt: the
body parses with the retryable retcode -500001 and _try_next_endpoint
succeeds, moving the selector to the fallback endpoint https://fb1 (final
state below).  The immediately following retry attempt is nevertheless sent
to https://p/e — the URL built from the endpoint current at entry — because
make_request computes url once, before its retry loop, and never rebuilds it;
the claim (and the spec) say the retry goes to the newly selected fallback
endpoint https://fb1/e. -/
theorem c2_theorem :
    (make_request ["https://fb1", "https://fb2"] "/e" 3 c2oracle ⟨"https://p", 0⟩).urls
      = ["https://p/e", "https://p/e"]
    ∧ (make_request ["https://fb1", "https://fb2"] "/e" 3 c2oracle ⟨"https://p", 0⟩).state
      = ⟨"https://fb1", 1⟩
    ∧ "https://p/e" ≠ "https://fb1" ++ "/e" := by
  refine ⟨rfl, rfl, by decide⟩

-- C3 -----------------------------------------------------------------------

/-- C3: endpoint fallback exhaustion.  For a fallback list of length K,
starting from a fresh executor (cursor 0): the cursor never exceeds K; each
of the first K advances returns true and sets the current endpoint to the
next fallback URL; every advance after the K-th returns false and leaves the
whole state (current URL and cursor) unchanged. -/
theorem c3_theorem (fallback : List String) (primary : String) (n : Nat) :
    (advance_iter fallback primary n).endpointIndex ≤ fallback.length
    ∧ (∀ h : n < fallback.length,
        (try_next_endpoint fallback (advance_iter fallback primary n)).1 = true
        ∧ (advance_iter fallback primary (n + 1)).currentEndpoint = fallback.get ⟨n, h⟩)
    ∧ (fallback.length ≤ n →
        (try_next_endpoint fallback (advance_iter fallback primary n)).1 = false
        ∧ advance_iter fallback primary (n + 1) = advance_iter fallback primary n) := by
  have hidx := advance_iter_index fallback primary n
  refine ⟨by omega, ?_, ?_⟩
  · intro h
    have hlt : (advance_iter fallback primary n).endpointIndex < fallback.length := by omega
    have hval : (advance_iter fallback primary n).endpointIndex = n := by omega
    constructor
    · rw [try_next_endpoint, dif_pos hlt]
    · have hfin : (⟨(advance_iter fallback primary n).endpointIndex, hlt⟩ : Fin fallback.length)
          = ⟨n, h⟩ := by
        apply Fin.ext
        simpa using hval
      show (try_next_endpoint fallback (advance_iter fallback primary n)).2.currentEndpoint = _
      rw [try_next_endpoint, dif_pos hlt]
      simp only []
      rw [hfin]
  · intro h
    have hge : ¬ (advance_iter fallback primary n).endpointIndex < fallback.length := by omega
    constructor
    · rw [try_next_endpoint, dif_neg hge]
    · show (try_next_endpoint fallback (advance_iter fallback primary n)).2 = _
      rw [try_next_endpoint, dif_neg hge]

/-- C3 witness: a two-element fallback list; the second advance succeeds and
selects the second fallback URL, the third advance is refused and leaves the
state unchanged. -/
theorem c3_witness :
    ((try_next_endpoint ["https://fb1", "https://fb2"]
        (advance_iter ["https://fb1", "https://fb2"] "https://p" 1)).1 = true
      ∧ (advance_iter ["https://fb1", "https://fb2"] "https://p" 2).currentEndpoint
          = "https://fb2")
    ∧ (try_next_endpoint ["https://fb1", "https://fb2"]
        (advance_iter ["https://fb1", "https://fb2"] "https://p" 2)).1 = false
    ∧ advance_iter ["https://fb1", "https://fb2"] "https://p" 3
        = advance_iter ["https://fb1", "https://fb2"] "https://p" 2 := by
  refine ⟨?_, ?_⟩
  · have h := ( c3_theorem ["https://fb1", "https://fb2"] "https://p" 1).2.1 (by decide)
    exact ⟨h.1, h.2⟩
  · exact ( c3_theorem ["https://fb1", "https://fb2"] "https://p" 2).2.2 (by decide)

-- C4 -----------------------------------------------------------------------

/-- C4: success code mapping of perform_checkin.  Under the upstream payload
contract (a retcode-0 claim response carries data["data"]["award"]),
perform_checkin returns True exactly when the response retcode is 0 or
-5003, and an absent response yields False. -/
theorem c4_theorem (table : List (String × String)) (resp : Option ApiResponse)
    (hwf : ∀ d, resp = some d → d.retcode = some 0 →
      ∃ dd, d.data = some dd ∧ ∃ aw, dd.award = some aw) :
    (perform_checkin table resp = .ok true ↔
      ∃ d, resp = some d ∧ (d.retcode = some 0 ∨ d.retcode = some (-5003)))
    ∧ (resp = none → perform_checkin table resp = .ok false)
    ∧ (∀ d, resp = some d → d.retcode ≠ some 0 → d.retcode ≠ some (-5003) →
        perform_checkin table resp = .ok false) := by
  rcases resp with _ | d
  · simp [perform_checkin]
  · refine ⟨?_, by simp, ?_⟩
    swap
    · rintro d' hd' hne0 hne5
      cases hd'
      simp [perform_checkin, hne0, hne5]
    simp only [perform_checkin]
    by_cases hrc : d.retcode = some 0
    · obtain ⟨dd, hdd, aw, haw⟩ := hwf d rfl hrc
      simp [hrc, hdd, haw]
    · simp only [if_neg hrc, Except.ok.injEq, Bool.or_eq_true, beq_iff_eq]
      constructor
      · rintro h
        exact ⟨d, rfl, by tauto⟩
      · rintro ⟨d', hd', h⟩
        cases hd'
        tauto

/-- C4 witness: a concrete already-claimed response (retcode -5003) maps to
True. -/
theorem c4_witness :
    perform_checkin [] (some ⟨some (-5003), none, none⟩) = .ok true :=
  ( c4_theorem [] (some ⟨some (-5003), none, none⟩)
    (by intro d hd h0; cases hd; exact absurd h0 (by decide))).1.mpr
    ⟨⟨some (-5003), none, none⟩, rfl, Or.inr rfl⟩

-- Shared safety lemmas for the reward lookups -------------------------------

/-- get_today_reward never raises IndexError: the guard
0 < day <= len(rewards) keeps the access rewards[day - 1] in bounds. -/
theorem get_today_reward_no_indexErr (table : List (String × String))
    (resp : Option ApiResponse) (info : Info) :
    get_today_reward table resp info ≠ .error .indexErr := by
  rcases resp with _ | d
  · simp [get_today_reward]
  · simp only [get_today_reward]
    by_cases hrc : d.retcode = some 0
    · rcases hd : d.data with _ | dd
      · simp [hrc, hd]
      · by_cases hguard : 0 < info.total_sign_day.getD 0
            ∧ info.total_sign_day.getD 0 ≤ (dd.awards.getD []).length
        · rcases hg : (dd.awards.getD [])[info.total_sign_day.getD 0 - 1]? with _ | aw
          · have := List.getElem?_eq_none_iff.mp hg
            omega
          · simp [hrc, hd, hguard, hg]
        · simp [hrc, hd, hguard]
    · simp [hrc]

/-- For a non-negative day — in particular for the day count that run()
feeds in — get_next_reward cannot raise IndexError: with 0 <= day the guard
day < len(rewards) does keep the access rewards[day] in bounds.  (For a
negative day it does not: see the C10 correction.) -/
theorem get_next_reward_no_indexErr (table : List (String × String))
    (resp : Option ApiResponse) (day : Int) (hday : 0 ≤ day) :
    get_next_reward table resp day ≠ .error .indexErr := by
  rcases resp with _ | d
  · simp [get_next_reward]
  · simp only [get_next_reward]
    by_cases hrc : d.retcode = some 0
    · rcases hd : d.data with _ | dd
      · simp [hrc, hd]
      · by_cases hguard : day < ((dd.awards.getD []).length : Int)
        · rcases hg : (dd.awards.getD [])[day.toNat]? with _ | aw
          · have := List.getElem?_eq_none_iff.mp hg
            omega
          · simp [hrc, hd, hguard, pyIndex, hday, hg]
        · simp [hrc, hd, hguard]
    · simp [hrc]

/-- Under the payload contract, get_today_reward returns normally. -/
theorem get_today_reward_ok (table : List (String × String))
    (resp : Option ApiResponse) (info : Info) (h : rewardRespOk resp) :
    ∃ v, get_today_reward table resp info = .ok v := by
  rcases resp with _ | d
  · exact ⟨none, rfl⟩
  · simp only [get_today_reward]
    by_cases hrc : d.retcode = some 0
    · rcases hd : d.data with _ | dd
      · exact absurd hd (h d rfl hrc)
      · by_cases hguard : 0 < info.total_sign_day.getD 0
            ∧ info.total_sign_day.getD 0 ≤ (dd.awards.getD []).length
        · rcases hg : (dd.awards.getD [])[info.total_sign_day.getD 0 - 1]? with _ | aw
          · have := List.getElem?_eq_none_iff.mp hg
            omega
          · exact ⟨some (format_reward_name table aw), by simp [hrc, hd, hguard, hg]⟩
        · exact ⟨none, by simp [hrc, hd, hguard]⟩
    · exact ⟨none, by simp [hrc]⟩

/-- Under the payload contract, and for a non-negative day, get_next_reward
returns normally. -/
theorem get_next_reward_ok (table : List (String × String))
    (resp : Option ApiResponse) (day : Int) (hday : 0 ≤ day) (h : rewardRespOk resp) :
    ∃ v, get_next_reward table resp day = .ok v := by
  rcases resp with _ | d
  · exact ⟨none, rfl⟩
  · simp only [get_next_reward]
    by_cases hrc : d.retcode = some 0
    · rcases hd : d.data with _ | dd
      · exact absurd hd (h d rfl hrc)
      · by_cases hguard : day < ((dd.awards.getD []).length : Int)
        · rcases hg : (dd.awards.getD [])[day.toNat]? with _ | aw
          · have := List.getElem?_eq_none_iff.mp hg
            omega
          · exact ⟨some (format_reward_name table aw),
              by simp [hrc, hd, hguard, pyIndex, hday, hg]⟩
        · exact ⟨none, by simp [hrc, hd, hguard]⟩
    · exact ⟨none, by simp [hrc]⟩

-- C10 ----------------------------------------------------------------------

/-- C10 counterexample: the reward lookups can index out of bounds.  With an
empty awards list (the retcode-0 reward response carries a data object
without an awards key) and the signed day -1, the guard day < len(rewards)
of get_next_reward is satisfied (-1 < 0), so instead of returning None the
code evaluates rewards[-1], which raises IndexError on the empty list —
refuting both the unconditional never-index-out-of-bounds part of the claim
and its description of the None condition. -/
theorem c10_counterexample :
    ((-1 : Int) < (([] : List Award).length : Int))
    ∧ get_next_reward [] (some ⟨some 0, none, some ⟨none, none⟩⟩) (-1)
        = .error KeyErr.indexErr
    ∧ ¬ get_next_reward [] (some ⟨some 0, none, some ⟨none, none⟩⟩) (-1) = .ok none := by
  exact ⟨by decide, rfl, fun h => Except.noConfusion h⟩

/-- C10 (amended): get_today_reward never indexes out of bounds — it returns
None whenever total_sign_day is 0 or exceeds the awards-list length, and
otherwise reads awards[day - 1] in bounds.  get_next_reward(day) returns
None whenever day is at least the awards-list length, and reads awards[day]
in bounds for non-negative day below the length; but for negative day the
guard day < len(rewards) also passes and Python negative indexing applies:
when -len <= day < 0 the lookup reads the wrapped element awards[len + day]
(in bounds), and when day < -len it raises IndexError. -/
theorem c10_theorem (table : List (String × String)) (resp : Option ApiResponse)
    (info : Info) (day : Int) :
    get_today_reward table resp info ≠ .error .indexErr
    ∧ (0 ≤ day → get_next_reward table resp day ≠ .error .indexErr)
    ∧ ∀ d dd, resp = some d → d.data = some dd → d.retcode = some 0 →
        ((info.total_sign_day.getD 0 = 0
            ∨ (dd.awards.getD []).length < info.total_sign_day.getD 0 →
          get_today_reward table resp info = .ok none)
        ∧ (0 < info.total_sign_day.getD 0 →
            info.total_sign_day.getD 0 ≤ (dd.awards.getD []).length →
            ∃ aw, (dd.awards.getD [])[info.total_sign_day.getD 0 - 1]? = some aw
              ∧ get_today_reward table resp info
                  = .ok (some (format_reward_name table aw)))
        ∧ (((dd.awards.getD []).length : Int) ≤ day →
            get_next_reward table resp day = .ok none)
        ∧ (0 ≤ day → day < ((dd.awards.getD []).length : Int) →
            ∃ aw, (dd.awards.getD [])[day.toNat]? = some aw
              ∧ get_next_reward table resp day
                  = .ok (some (format_reward_name table aw)))
        ∧ (-(((dd.awards.getD []).length : Int)) ≤ day → day < 0 →
            ∃ aw, (dd.awards.getD [])[(day + ((dd.awards.getD []).length : Int)).toNat]?
                = some aw
              ∧ get_next_reward table resp day
                  = .ok (some (format_reward_name table aw)))
        ∧ (day < -(((dd.awards.getD []).length : Int)) →
            get_next_reward table resp day = .error .indexErr)) := by
  refine ⟨get_today_reward_no_indexErr table resp info,
    fun hday => get_next_reward_no_indexErr table resp day hday, ?_⟩
  rintro d dd rfl hdd hrc
  refine ⟨?_, ?_, ?_, ?_, ?_, ?_⟩
  · intro hout
    have hguard : ¬ (0 < info.total_sign_day.getD 0
        ∧ info.total_sign_day.getD 0 ≤ (dd.awards.getD []).length) := by omega
    simp [get_today_reward, hrc, hdd, hguard]
  · intro h1 h2
    have hguard : 0 < info.total_sign_day.getD 0
        ∧ info.total_sign_day.getD 0 ≤ (dd.awards.getD []).length := ⟨h1, h2⟩
    rcases hg : (dd.awards.getD [])[info.total_sign_day.getD 0 - 1]? with _ | aw
    · have := List.getElem?_eq_none_iff.mp hg
      omega
    · exact ⟨aw, rfl, by simp [get_today_reward, hrc, hdd, hguard, hg]⟩
  · intro hout
    have hguard : ¬ day < ((dd.awards.getD []).length : Int) := by omega
    simp [get_next_reward, hrc, hdd, hguard]
  · intro hnn hlt
    rcases hg : (dd.awards.getD [])[day.toNat]? with _ | aw
    · have := List.getElem?_eq_none_iff.mp hg
      omega
    · exact ⟨aw, rfl, by simp [get_next_reward, hrc, hdd, hlt, pyIndex, hnn, hg]⟩
  · intro hge hneg
    have hnn : ¬ (0 ≤ day) := by omega
    have hpos : 0 ≤ day + ((dd.awards.getD []).length : Int) := by omega
    have hguard : day < ((dd.awards.getD []).length : Int) := by omega
    rcases hg : (dd.awards.getD [])[(day + ((dd.awards.getD []).length : Int)).toNat]?
        with _ | aw
    · have := List.getElem?_eq_none_iff.mp hg
      omega
    · exact ⟨aw, rfl, by simp [get_next_reward, hrc, hdd, hguard, pyIndex, hnn, hpos, hg]⟩
  · intro hlt2
    have hguard : day < ((dd.awards.getD []).length : Int) := by omega
    have hnn : ¬ (0 ≤ day) := by omega
    have hneg2 : ¬ (0 ≤ day + ((dd.awards.getD []).length : Int)) := by omega
    simp [get_next_reward, hrc, hdd, hguard, pyIndex, hnn, hneg2]

/-- C10 witness: a one-award reward response with total_sign_day 1.  The
today lookup reads awards[0]; get_next_reward reads awards[0] for day 0, is
refused for day 1, wraps to awards[0] for day -1, and raises IndexError for
day -2. -/
theorem c10_witness :
    get_today_reward [] (some ⟨some 0, none, some ⟨some [⟨some "Primogem", some 60⟩], none⟩⟩)
        ⟨some true, some 1⟩
      = .ok (some (format_reward_name [] ⟨some "Primogem", some 60⟩))
    ∧ get_next_reward [] (some ⟨some 0, none, some ⟨some [⟨some "Primogem", some 60⟩], none⟩⟩) 0
      = .ok (some (format_reward_name [] ⟨some "Primogem", some 60⟩))
    ∧ get_next_reward [] (some ⟨some 0, none, some ⟨some [⟨some "Primogem", some 60⟩], none⟩⟩) 1
      = .ok none
    ∧ get_next_reward [] (some ⟨some 0, none, some ⟨some [⟨some "Primogem", some 60⟩], none⟩⟩) (-1)
      = .ok (some (format_reward_name [] ⟨some "Primogem", some 60⟩))
    ∧ get_next_reward [] (some ⟨some 0, none, some ⟨some [⟨some "Primogem", some 60⟩], none⟩⟩) (-2)
      = .error KeyErr.indexErr := by
  have h0 := ( c10_theorem [] (some ⟨some 0, none, some ⟨some [⟨some "Primogem", some 60⟩], none⟩⟩)
      ⟨some true, some 1⟩ 0).2.2 _ _ rfl rfl rfl
  have h1 := ( c10_theorem [] (some ⟨some 0, none, some ⟨some [⟨some "Primogem", some 60⟩], none⟩⟩)
      ⟨some true, some 1⟩ 1).2.2 _ _ rfl rfl rfl
  have hm1 := ( c10_theorem [] (some ⟨some 0, none, some ⟨some [⟨some "Primogem", some 60⟩], none⟩⟩)
      ⟨some true, some 1⟩ (-1)).2.2 _ _ rfl rfl rfl
  have hm2 := ( c10_theorem [] (some ⟨some 0, none, some ⟨some [⟨some "Primogem", some 60⟩], none⟩⟩)
      ⟨some true, some 1⟩ (-2)).2.2 _ _ rfl rfl rfl
  refine ⟨?_, ?_, h1.2.2.1 (by decide), ?_, hm2.2.2.2.2.2 (by decide)⟩
  · obtain ⟨aw, haw, hres⟩ := h0.2.1 (by decide) (by decide)
    have haw2 : some (⟨some "Primogem", some 60⟩ : Award) = some aw := haw
    cases haw2
    exact hres
  · obtain ⟨aw, haw, hres⟩ := h0.2.2.2.1 (by decide) (by decide)
    have haw2 : some (⟨some "Primogem", some 60⟩ : Award) = some aw := haw
    cases haw2
    exact hres
  · obtain ⟨aw, haw, hres⟩ := hm1.2.2.2.2.1 (by decide) (by decide)
    have haw2 : some (⟨some "Primogem", some 60⟩ : Award) = some aw := haw
    cases haw2
    exact hres

-- C5 -----------------------------------------------------------------------

/-- Under the payload contract, the reward/display tail of run returns True
without raising. -/
theorem run_after_checkin_ok (env : RunEnv) (info : Info) (invoked : Bool)
    (hday : info.total_sign_day ≠ none)
    (hT : rewardRespOk env.rewardRespToday) (hN : rewardRespOk env.rewardRespNext) :
    run_after_checkin env info invoked = (.ok true, invoked) := by
  by_cases hs : env.showDetailed
  · obtain ⟨vT, hvT⟩ := get_today_reward_ok env.table env.rewardRespToday info hT
    rcases hd : info.total_sign_day with _ | d
    · exact absurd hd hday
    · obtain ⟨vN, hvN⟩ := get_next_reward_ok env.table env.rewardRespNext (d : Int)
        (by omega) hN
      simp [run_after_checkin, hs, hvT, hd, hvN]
  · simp [run_after_checkin, hs]

/-- C5: idempotent already-done, and best-effort refetch.  Under the payload
contract (info objects carry total_sign_day; retcode-0 reward responses carry
a data object): when the initial get_checkin_info succeeds with
is_sign = true, perform_checkin is never invoked and run returns True; and
when is_sign was false, perform_checkin succeeded, and the status refetch
fails, run still returns True. -/
theorem c5_theorem (env : RunEnv) (info : Info)
    (h0 : env.info0 = some info)
    (hday : ∀ i : Info, env.info0 = some i ∨ env.info1 = some i → i.total_sign_day ≠ none)
    (hT : rewardRespOk env.rewardRespToday) (hN : rewardRespOk env.rewardRespNext) :
    (info.is_sign = some true → run env = (.ok true, false))
    ∧ (info.is_sign.getD false = false → env.checkinResult = .ok true → env.info1 = none →
        run env = (.ok true, true)) := by
  constructor
  · intro hsign
    rw [run, h0]
    simp only [hsign, Option.getD_some, if_true]
    exact run_after_checkin_ok env info false (hday info (Or.inl h0)) hT hN
  · intro hsign hchk hre
    rw [run, h0]
    simp only [hsign, Bool.false_eq_true, if_false, hchk, hre, Option.getD_none]
    exact run_after_checkin_ok env info true (hday info (Or.inl h0)) hT hN

/-- C5 witness: a run whose initial status reports is_sign = true returns
True without invoking perform_checkin (the environment would make
perform_checkin fail, which shows it is not consulted). -/
theorem c5_witness :
    run ⟨false, [], some ⟨some true, some 3⟩, .ok false, none, none, none⟩
      = (.ok true, false) := by
  refine ( c5_theorem ⟨false, [], some ⟨some true, some 3⟩, .ok false, none, none, none⟩
      ⟨some true, some 3⟩ rfl ?_ ?_ ?_).1 rfl
  · intro i hi
    rcases hi with h | h
    · injection h with h'
      subst h'
      simp
    · simp at h
  · intro d hd
    simp at hd
  · intro d hd
    simp at hd

-- C6 -----------------------------------------------------------------------

/-- The lexicographic code-point order is total. -/
theorem charsLe_total : ∀ a b : List Char, charsLe a b = true ∨ charsLe b a = true
  | [], _ => Or.inl rfl
  | _ :: _, [] => Or.inr rfl
  | a :: as, b :: bs => by
    by_cases h : a = b
    · subst h
      rcases charsLe_total as bs with h' | h'
      · exact Or.inl (by simp [charsLe, h'])
      · exact Or.inr (by simp [charsLe, h'])
    · rcases lt_trichotomy a b with hlt | heq | hgt
      · exact Or.inl (by simp [charsLe, h, hlt])
      · exact absurd heq h
      · exact Or.inr (by simp [charsLe, Ne.symm h, hgt])

/-- The lexicographic code-point order is transitive. -/
theorem charsLe_trans : ∀ a b c : List Char,
    charsLe a b = true → charsLe b c = true → charsLe a c = true
  | [], _, _, _, _ => rfl
  | _ :: _, [], _, hab, _ => by simp [charsLe] at hab
  | _ :: _, _ :: _, [], _, hbc => by simp [charsLe] at hbc
  | a :: as, b :: bs, c :: cs, hab, hbc => by
    simp only [charsLe] at hab hbc ⊢
    by_cases h1 : a = b
    · subst h1
      by_cases h2 : a = c
      · subst h2
        rw [if_pos rfl] at hab hbc ⊢
        exact charsLe_trans as bs cs hab hbc
      · rw [if_pos rfl] at hab
        rw [if_neg h2] at hbc ⊢
        exact hbc
    · rw [if_neg h1] at hab
      have hlt : a < b := by simpa using hab
      by_cases h2 : b = c
      · subst h2
        rw [if_neg h1]
        exact hab
      · rw [if_neg h2] at hbc
        have hlt2 : b < c := by simpa using hbc
        have hac : a < c := lt_trans hlt hlt2
        rw [if_neg (ne_of_lt hac)]
        simpa using hac

/-- Unfolded form of the run_checkins fold: the aggregate is the conjunction
of the per-game outcome booleans, and the summary appends one entry per
visited game. -/
theorem checkin_foldl : ∀ (l : List (String × Except String Bool))
    (acc : Bool × List (String × Bool)),
    l.foldl checkin_step acc
      = (acc.1 && l.all (fun gc => outcomeBool gc.2),
         acc.2 ++ l.map (fun gc => (gc.1, outcomeBool gc.2))) := by
  intro l
  induction l with
  | nil => intro acc; simp
  | cons gc rest ih =>
    intro acc
    rw [List.foldl_cons, ih]
    rcases gc with ⟨g, b⟩
    rcases b with e | r
    · simp [checkin_step, outcomeBool]
    · simp [checkin_step, outcomeBool, Bool.and_assoc]

/-- all over a mapped list tests the composite predicate. -/
theorem all_map_comp {α β : Type} (f : α → β) (p : β → Bool) (l : List α) :
    (l.map f).all p = l.all (fun a => p (f a)) := by
  induction l with
  | nil => rfl
  | cons a t ih => simp [ih]

/-- C6: cycle isolation and aggregation in run_checkins.  The summary is one
entry per enabled game in the sorted visiting order, with a raised exception
recorded as a failure for that game while every other game still gets its
entry; the key sequence of the summary is a permutation of the client keys
and is sorted lexically; and the aggregate boolean is the conjunction of all
per-game results. -/
theorem c6_theorem (clients : List (String × Except String Bool)) :
    (run_checkins clients).2
      = (List.insertionSort gameKeyRel clients).map (fun gc => (gc.1, outcomeBool gc.2))
    ∧ (run_checkins clients).1 = (run_checkins clients).2.all (fun e => e.2)
    ∧ ((run_checkins clients).2.map Prod.fst).Perm (clients.map Prod.fst)
    ∧ ((run_checkins clients).2.map Prod.fst).Pairwise (fun a b => strLe a b = true)
    ∧ ∀ gc ∈ clients, gc.1 ∈ (run_checkins clients).2.map Prod.fst := by
  have h2 : (run_checkins clients).2
      = (List.insertionSort gameKeyRel clients).map (fun gc => (gc.1, outcomeBool gc.2)) := by
    rw [run_checkins, checkin_foldl]
    rfl
  have hperm := List.perm_insertionSort gameKeyRel clients
  have hmapfst : ((List.insertionSort gameKeyRel clients).map
        (fun gc => (gc.1, outcomeBool gc.2))).map Prod.fst
      = (List.insertionSort gameKeyRel clients).map Prod.fst := by
    simp [List.map_map]
  refine ⟨h2, ?_, ?_, ?_, ?_⟩
  · rw [run_checkins, checkin_foldl]
    simp only [h2, Bool.true_and, List.nil_append, all_map_comp]
  · rw [h2, hmapfst]
    exact hperm.map Prod.fst
  · rw [h2, hmapfst]
    have htot : IsTotal (String × Except String Bool) gameKeyRel :=
      ⟨fun a b => charsLe_total a.1.toList b.1.toList⟩
    have htrans : IsTrans (String × Except String Bool) gameKeyRel :=
      ⟨fun a b c hab hbc => charsLe_trans a.1.toList b.1.toList c.1.toList hab hbc⟩
    have hs := @List.sorted_insertionSort _ gameKeyRel gameKeyRelDecidable htot htrans clients
    exact List.pairwise_map.mpr hs
  · intro gc hgc
    rw [h2, hmapfst]
    exact ((hperm.map Prod.fst).mem_iff).mpr (List.mem_map_of_mem Prod.fst hgc)

/-- C6 witness: two games, the lexically earlier one ("gi") raising an
exception; both get a summary entry, in sorted order, the raiser recorded as
a failure, and the aggregate is False. -/
theorem c6_witness :
    (run_checkins [("hsr", .ok true), ("gi", .error "boom")]).2
      = [("gi", false), ("hsr", true)]
    ∧ (run_checkins [("hsr", .ok true), ("gi", .error "boom")]).1 = false
    ∧ "hsr" ∈ (run_checkins [("hsr", .ok true), ("gi", .error "boom")]).2.map Prod.fst := by
  have h := c6_theorem [("hsr", .ok true), ("gi", .error "boom")]
  refine ⟨?_, ?_, h.2.2.2.2 ("hsr", .ok true) (by simp)⟩
  · rw [h.1]
    decide
  · rw [h.2.1, h.1]
    decide

-- C7 -----------------------------------------------------------------------

/-- C7: resilience and termination of the scheduler loop.  An unexpected
exception in an iteration is caught inside the loop and followed by the fixed
60-second sleep, after which the loop continues from the same state; an exit
with reason conditionFalse really has should_continue_loop false at the final
run count; an interrupted exit only happens when some iteration raised
KeyboardInterrupt; and with looping enabled and max_runs = 0 the continue
condition is always true (unlimited). -/
theorem c7_theorem (cfg : LoopConfig) (oracle : Nat → LoopEvent) (fuel i runCount : Nat) :
    (should_continue_loop cfg runCount = true → oracle i = .error →
      start_loop cfg oracle (fuel + 1) i runCount
        = (.slept60 :: (start_loop cfg oracle fuel (i + 1) runCount).1,
           (start_loop cfg oracle fuel (i + 1) runCount).2))
    ∧ ((start_loop cfg oracle fuel i runCount).2.1 = .conditionFalse →
        should_continue_loop cfg (start_loop cfg oracle fuel i runCount).2.2 = false)
    ∧ ((start_loop cfg oracle fuel i runCount).2.1 = .interrupted →
        ∃ j, oracle j = .interrupt)
    ∧ (cfg.loopEnabled = true → cfg.maxRuns = 0 →
        should_continue_loop cfg runCount = true) := by
  refine ⟨?_, ?_, ?_, ?_⟩
  · intro hc he
    simp [start_loop, hc, he]
  · induction fuel generalizing i runCount with
    | zero =>
      intro h
      simp [start_loop] at h
    | succ fuel ih =>
      intro h
      by_cases hc : should_continue_loop cfg runCount
      · rw [start_loop] at h ⊢
        rcases ho : oracle i with _ | _ | success
        · simp [hc, ho] at h
        · simp only [hc, if_true, ho] at h ⊢
          exact ih (i + 1) runCount h
        · by_cases hc2 : should_continue_loop cfg (runCount + 1)
          · by_cases hr : (!success && cfg.retryFailed)
            · simp only [hc, if_true, ho, hc2, hr] at h ⊢
              exact ih (i + 1) (runCount + 1) h
            · simp only [hc, if_true, ho, hc2, hr, if_false, Bool.false_eq_true] at h ⊢
              exact ih (i + 1) (runCount + 1) h
          · simp only [hc, if_true, ho] at h ⊢
            rw [if_neg hc2] at h ⊢
            simpa using hc2
      · rw [start_loop] at h ⊢
        rw [if_neg hc] at h ⊢
        simpa using hc
  · induction fuel generalizing i runCount with
    | zero =>
      intro h
      simp [start_loop] at h
    | succ fuel ih =>
      intro h
      by_cases hc : should_continue_loop cfg runCount
      · rw [start_loop] at h
        rcases ho : oracle i with _ | _ | success
        · exact ⟨i, ho⟩
        · simp only [hc, if_true, ho] at h
          exact ih (i + 1) runCount h
        · by_cases hc2 : should_continue_loop cfg (runCount + 1)
          · by_cases hr : (!success && cfg.retryFailed)
            · simp only [hc, if_true, ho, hc2, hr] at h
              exact ih (i + 1) (runCount + 1) h
            · simp only [hc, if_true, ho, hc2, hr, if_false, Bool.false_eq_true] at h
              exact ih (i + 1) (runCount + 1) h
          · simp only [hc, if_true, ho] at h
            rw [if_neg hc2] at h
            simp at h
      · rw [start_loop, if_neg hc] at h
        simp at h
  · intro h1 h2
    simp [should_continue_loop, h1, h2]

/-- C7 witness: the theorem applied at concrete configurations — an error
iteration continues with a 60-second sleep; a max_runs = 1 configuration
exits with a genuinely false continue condition after one cycle; and
max_runs = 0 with looping enabled never makes the condition false. -/
theorem c7_witness :
    start_loop ⟨true, 0, false⟩ (fun _ => .error) 3 0 0
      = (.slept60 :: (start_loop ⟨true, 0, false⟩ (fun _ => .error) 2 1 0).1,
         (start_loop ⟨true, 0, false⟩ (fun _ => .error) 2 1 0).2)
    ∧ should_continue_loop ⟨true, 1, false⟩
        (start_loop ⟨true, 1, false⟩ (fun _ => .cycle true) 2 0 0).2.2 = false
    ∧ should_continue_loop ⟨true, 0, false⟩ 5 = true := by
  refine ⟨( c7_theorem ⟨true, 0, false⟩ (fun _ => .error) 2 0 0).1 rfl rfl,
    ( c7_theorem ⟨true, 1, false⟩ (fun _ => .cycle true) 2 0 0).2.1 rfl,
    ( c7_theorem ⟨true, 0, false⟩ (fun _ => .error) 0 0 5).2.2.2 rfl rfl⟩

-- C8 -----------------------------------------------------------------------

/-- C8: daily schedule rollover.  For a valid wall-clock time (hour below
24, minute below 60), the daily branch of get_next_run_time returns the next
strictly future occurrence of the configured wall-clock time: the result is
strictly after now, falls at the configured second of the day, and no
earlier strictly-future instant has that wall-clock time.  In particular at
09:01 UTC the result for "09:00" is 09:00 the next day, and at 08:59 it is
09:00 the same day. -/
theorem c8_theorem (dailyH dailyM now : Nat) (hh : dailyH < 24) (hm : dailyM < 60) :
    now < get_next_run_time dailyH dailyM now
    ∧ get_next_run_time dailyH dailyM now % 86400 = dailyH * 3600 + dailyM * 60
    ∧ ∀ u, u % 86400 = dailyH * 3600 + dailyM * 60 → now < u →
        get_next_run_time dailyH dailyM now ≤ u := by
  refine ⟨?_, ?_, ?_⟩
  · simp only [get_next_run_time]
    split <;> omega
  · simp only [get_next_run_time]
    split <;> omega
  · intro u hu hlt
    simp only [get_next_run_time]
    split <;> omega

/-- C8 witness: with daily_time 09:00, at 09:01:00 UTC (second 32460 of the
day) the next run is 09:00 the following day (second 118800), and at
08:59:00 UTC (second 32340) it is 09:00 the same day (second 32400). -/
theorem c8_witness :
    get_next_run_time 9 0 32460 = 118800 ∧ get_next_run_time 9 0 32340 = 32400 := by
  obtain ⟨h1a, h1b, h1c⟩ := c8_theorem 9 0 32460 (by omega) (by omega)
  obtain ⟨h2a, h2b, h2c⟩ := c8_theorem 9 0 32340 (by omega) (by omega)
  have hu1 := h1c 118800 (by omega) (by omega)
  have hu2 := h2c 32400 (by omega) (by omega)
  omega

-- C9 -----------------------------------------------------------------------

/-- C9 counterexample: a make_request call that exhausts its retries on
three consecutive HTTP 429 failures returns None; the _retry_request wrapper
around it emits zero notifications, not exactly one — make_request catches
every RequestException internally and returns normally, so the notification
branch of _retry_request never runs. -/
theorem c9_counterexample :
    (retry_request (fun _ => .ok (make_request ["https://fb1"] "/e" 3
        (fun _ => .exc (.httpError 429)) ⟨"https://p", 0⟩).result) 3).1 = none
    ∧ ¬ (retry_request (fun _ => .ok (make_request ["https://fb1"] "/e" 3
        (fun _ => .exc (.httpError 429)) ⟨"https://p", 0⟩).result) 3).2 = 1 := by
  exact ⟨rfl, by decide⟩

/-- C9 (amended): whenever every make_request call returns normally — which
the make_request embedding does by construction, mirroring the source, where
every dispatch path of the except handlers returns or continues —
_retry_request emits no failure notification at all, on final exhaustion or
otherwise; the first call value is simply passed through. -/
theorem c9_theorem (calls : Nat → Except TransportExc (Option ApiResponse))
    (maxRetries : Nat) (h : ∀ i, ∃ v, calls i = .ok v) :
    (retry_request calls maxRetries).2 = 0 := by
  rw [retry_request]
  by_cases hm : maxRetries = 0
  · simp [hm]
  · rw [if_neg hm]
    obtain ⟨m, rfl⟩ : ∃ m, maxRetries = m + 1 := ⟨maxRetries - 1, by omega⟩
    obtain ⟨v, hv⟩ := h 0
    simp [retry_request_go, hv]

/-- C9 witness: the amended theorem applied to _retry_request composed with
a make_request that exhausts its budget on 429 failures. -/
theorem c9_witness :
    (retry_request (fun _ => .ok (make_request ["https://fb1", "https://fb2"] "/e" 3
        (fun _ => .exc (.httpError 429)) ⟨"https://p", 0⟩).result) 3).2 = 0 :=
  c9_theorem _ 3 (fun _ => ⟨_, rfl⟩)
